import Mathlib

/-!
Verification development for the BetaVAE repository: a shallow embedding of
the FID (Fréchet Inception Distance) pipeline in `utils/fid.py` and of the
model-saving helper in `training.py`, together with theorems settling the
specification claims about them.

Conventions of the embedding:
* numpy arrays of floats are modelled as lists / functions over `ℚ`;
* `scipy.linalg.sqrtm` is external to the repository and is modelled as an
  oracle parameter returning a `SqrtmOut` (real part, imaginary part, the
  dtype-is-complex flag tested by `np.iscomplexobj`, and the flag tested by
  `np.isfinite(...).all()`); a real-dtype result carries its values in `re`
  with `isComplex = false`;
* Python exceptions (including `NameError` from unbound names) are modelled
  with `Except String`.
-/

set_option autoImplicit false

namespace BetaVAE

/-- Vector of rationals, modelling a 1-d numpy float array. -/
abbrev Vec := List ℚ

/-- Matrix of rationals as a list of rows, modelling a 2-d numpy float array. -/
abbrev Mat := List (List ℚ)

/-- Shape of a 2-d array: (number of rows, length of the first row). -/
def shapeM (m : Mat) : ℕ × ℕ := (m.length, (m.headD []).length)

/-- Column `j` of a matrix (entries read with default 0, as all our matrices
are rectangular in use). -/
def colL (m : Mat) (j : ℕ) : Vec := m.map (fun r => r.getD j 0)

/-- Dot product of two vectors, modelling `x.dot(y)` for 1-d arrays. -/
def dotL (x y : Vec) : ℚ := (List.zipWith (· * ·) x y).sum

/-- Matrix product, modelling `a.dot(b)` for 2-d arrays. -/
def matmulL (a b : Mat) : Mat :=
  a.map (fun row => (List.range (shapeM b).2).map (fun j => dotL row (colL b j)))

/-- Trace of a matrix, modelling `np.trace`. -/
def traceL (m : Mat) : ℚ :=
  ((List.range m.length).map (fun i => (m.getD i []).getD i 0)).sum

/-- Main diagonal of a matrix, modelling `np.diagonal`. -/
def diagL (m : Mat) : Vec :=
  (List.range m.length).map (fun i => (m.getD i []).getD i 0)

/-- Scaled identity matrix, modelling `np.eye(n) * eps` (line 117 of fid.py). -/
def eyeL (n : ℕ) (eps : ℚ) : Mat :=
  (List.range n).map (fun i => (List.range n).map (fun j => if i = j then eps else 0))

/-- Elementwise matrix sum, modelling `sigma + offset`. -/
def addM (a b : Mat) : Mat := List.zipWith (fun r s => List.zipWith (· + ·) r s) a b

/-- Maximum absolute value over all entries of a matrix, modelling
`np.max(np.abs(m))`. -/
def maxAbsL (m : Mat) : ℚ :=
  (m.map (fun r => (r.map (fun x => |x|)).foldr max 0)).foldr max 0

/-- Result of the `scipy.linalg.sqrtm` oracle, as observed by fid.py:
the real part, the imaginary part, whether the returned dtype is complex
(`np.iscomplexobj`), and whether every entry is finite
(`np.isfinite(...).all()`).  A real-dtype result has its values in `re` and
`isComplex = false`. -/
structure SqrtmOut where
  re : Mat
  im : Mat
  isComplex : Bool
  allFinite : Bool
deriving DecidableEq

/-- Test of line 122 of fid.py: `np.allclose(np.diagonal(covmean).imag, 0,
atol=1e-3)`; with the comparison target 0, the relative term vanishes and the
test is that every diagonal imaginary entry has absolute value at most 1e-3. -/
def diagImagNegligible (im : Mat) : Bool :=
  (diagL im).all (fun x => decide (|x| ≤ 1/1000))

/-- Lines 111-118 of `_calculate_frechet_distance`: the square root of
`sigma1.dot(sigma2)` is computed; if it has a non-finite entry, `eps` is added
to the diagonal of both covariance estimates and the square root of the
perturbed product is computed instead (and used whatever it is). -/
def frechetCovmean (sqrtm : Mat → SqrtmOut) (sigma1 sigma2 : Mat) (eps : ℚ) : SqrtmOut :=
  let covmean := sqrtm (matmulL sigma1 sigma2)
  if covmean.allFinite then covmean
  else
    let offset := eyeL (shapeM sigma1).1 eps
    sqrtm (matmulL (addM sigma1 offset) (addM sigma2 offset))

/-- Lines 120-130 of `_calculate_frechet_distance`: if the square root is
complex with a non-negligible imaginary diagonal, raise ValueError naming the
maximum absolute imaginary entry; otherwise keep the real component and return
`diff.dot(diff) + np.trace(sigma1) + np.trace(sigma2) - 2 * np.trace(covmean)`. -/
def frechetTail (mu1 mu2 : Vec) (sigma1 sigma2 : Mat) (covmean : SqrtmOut) :
    Except String ℚ :=
  if covmean.isComplex && !diagImagNegligible covmean.im then
    Except.error ("Imaginary component " ++ toString (maxAbsL covmean.im))
  else
    let diff := List.zipWith (· - ·) mu1 mu2
    Except.ok (dotL diff diff + traceL sigma1 + traceL sigma2 - 2 * traceL covmean.re)

/-- Shallow embedding of `_calculate_frechet_distance` (fid.py lines 87-130),
with `scipy.linalg.sqrtm` passed as an oracle.  The two `assert` statements on
lines 106-107 are modelled as error results carrying the assertion messages. -/
def calculate_frechet_distance (sqrtm : Mat → SqrtmOut) (mu1 mu2 : Vec)
    (sigma1 sigma2 : Mat) (eps : ℚ) : Except String ℚ :=
  if mu1.length ≠ mu2.length then
    Except.error "Training and test mean vectors have different lengths"
  else if shapeM sigma1 ≠ shapeM sigma2 then
    Except.error "Training and test covariances have different dimensions"
  else
    frechetTail mu1 mu2 sigma1 sigma2 (frechetCovmean sqrtm sigma1 sigma2 eps)

/-- Default value of the `eps` parameter of `_calculate_frechet_distance`
(`eps=1e-6` on line 87 of fid.py). -/
def fid_eps : ℚ := 1/1000000

/-- Call of `_calculate_frechet_distance` with `eps` left at its default, as
done by `get_fid_value` on line 262 of fid.py. -/
def calculate_frechet_distance_default (sqrtm : Mat → SqrtmOut) (mu1 mu2 : Vec)
    (sigma1 sigma2 : Mat) : Except String ℚ :=
  calculate_frechet_distance sqrtm mu1 mu2 sigma1 sigma2 fid_eps

/-- Shallow embedding of `np.mean(act, axis=0)` on an N-by-D activation
matrix: the column-wise arithmetic mean. -/
def np_mean_axis0 (N D : ℕ) (a : Fin N → Fin D → ℚ) : Fin D → ℚ :=
  fun j => (∑ i, a i j) / N

/-- Normalization factor of `np.cov`: `fact = N - ddof` with the default
`ddof = 1`, clipped to 0 when non-positive (numpy warns in that case and the
division then produces non-finite entries; in this rational model a division
by the zero factor yields 0). -/
def covFact (N : ℕ) : ℚ := if (N : ℚ) - 1 ≤ 0 then 0 else (N : ℚ) - 1

/-- Shallow embedding of `np.cov(act, rowvar=False)` on an N-by-D matrix,
following the numpy implementation: with features as variables and rows as
observations, subtract the per-variable average, and divide the dot product
over observations of centred columns j and k by `covFact N`. -/
def np_cov_rowvar_false (N D : ℕ) (a : Fin N → Fin D → ℚ) : Fin D → Fin D → ℚ :=
  fun j k =>
    (∑ i, (a i j - np_mean_axis0 N D a j) * (a i k - np_mean_axis0 N D a k)) / covFact N

/-- Shallow embedding of the statistics step of
`_calculate_activation_statistics` (fid.py lines 150-151), taking the already
extracted N-by-D activation matrix: `mu = np.mean(act, axis=0)` and
`sigma = np.cov(act, rowvar=False)`. -/
def calculate_activation_statistics (N D : ℕ) (a : Fin N → Fin D → ℚ) :
    (Fin D → ℚ) × (Fin D → Fin D → ℚ) :=
  (np_mean_axis0 N D a, np_cov_rowvar_false N D a)

/-- Row of the preallocated activation matrix of `_get_activations`. -/
abbrev ARow := List ℚ

/-- Cell of the preallocated activation matrix: the number of times the row
has been written so far, paired with its current contents. -/
abbrev ACell := ℕ × ARow

/-- Slice assignment `pred_arr[start_idx : start_idx + rows.length] = rows`
(fid.py line 81), recording one extra write per assigned row; rows that fall
beyond the end of the array are dropped (numpy would raise there, and the
theorems only use in-bounds writes). -/
def writeSlice : List ACell → ℕ → List ARow → List ACell
  | [], _, _ => []
  | c :: cs, 0, [] => c :: cs
  | c :: cs, 0, r :: rs => (c.1 + 1, r) :: writeSlice cs 0 rs
  | c :: cs, s + 1, rs => c :: writeSlice cs s rs

/-- Batch loop of `_get_activations` (fid.py lines 65-83): starting from
offset 0, write each batch's embedding rows at the current offset by slice
assignment and advance the offset by that batch's row count. -/
def getActivationsLoop : List ACell → ℕ → List (List ARow) → List ACell
  | arr, _, [] => arr
  | arr, start, p :: ps => getActivationsLoop (writeSlice arr start p) (start + p.length) ps

/-- Shallow embedding of the output-matrix construction of `_get_activations`:
`pred_arr = np.empty((length, dims))` is modelled by the arbitrary
uninitialized row contents `init` with write count 0, and `preds` is the list
of per-batch embedding matrices produced by the feature network (pooled and
squeezed to two dimensions). -/
def get_activations (init : List ARow) (preds : List (List ARow)) : List ACell :=
  getActivationsLoop (init.map (fun r => (0, r))) 0 preds

/-- Shape-and-values view of the feature-network output tensor for one batch:
`n` samples, `c` channels, spatial extent `h` by `w`. -/
structure Pred4 where
  n : ℕ
  c : ℕ
  h : ℕ
  w : ℕ
  val : ℕ → ℕ → ℕ → ℕ → ℚ

/-- Lines 74-79 of `_get_activations`.  The source reads
`if pred.size(2) != 1 or pred.size(3) != 1: pred = adaptive_avg_pool2d(pred,
output_size=(1, 1))`, but the name `adaptive_avg_pool2d` is never imported or
defined anywhere in `utils/fid.py` (no line brings it in from
`torch.nn.functional`), so Python raises NameError as soon as that branch is
taken.  The embedding returns that exception; on the 1-by-1 path the tensor
is squeezed to an `n` by `c` embedding matrix. -/
def getActivationsPool (pred : Pred4) : Except String (ℕ → ℕ → ℚ) :=
  if pred.h ≠ 1 ∨ pred.w ≠ 1 then
    Except.error "NameError: name adaptive_avg_pool2d is not defined"
  else
    Except.ok (fun i ch => pred.val i ch 0 0)

/-- Evaluation cap `FID_EVAL_SIZE` (fid.py line 27). -/
def FID_EVAL_SIZE : ℕ := 100000

/-- Number of index positions drawn on line 232 of `get_fid_value`:
`num_samples = min(FID_EVAL_SIZE, len(dataloader.dataset))`. -/
def fidNumSamples (N : ℕ) : ℕ := min FID_EVAL_SIZE N

/-- Characterization of a legal output of
`np.random.choice(len(dataset), num_samples, replace=False)` (fid.py line
233): a list of `num_samples` pairwise distinct index positions below the
dataset cardinality. -/
def IsChoiceWithoutReplacement (N : ℕ) (drawn : List ℕ) : Prop :=
  drawn.length = fidNumSamples N ∧ drawn.Nodup ∧ ∀ x ∈ drawn, x < N

/-- Semantics of `torch.utils.data.sampler.SequentialSampler(data_source)`:
it yields the positions `0, 1, ..., len(data_source) - 1` in order, never
reading the contents of `data_source`. -/
def sequentialSampler {α : Type} (dataSource : List α) : List ℕ :=
  List.range dataSource.length

/-- Index positions actually used by `get_fid_value` to select samples
(fid.py lines 233-239 and 253-254): the drawn `subset_indices` list is
wrapped in `SequentialSampler(subset_indices)`, and that single shared
sampler drives both the reconstructed and the original `DataLoader`. -/
def fidUsedIndices (drawn : List ℕ) : List ℕ := sequentialSampler drawn

/-- File contents written by `save_model`: the metadata JSON object (fields
`img_size`, `latent_dim`, `model_type`, abstracted to tokens) or the
serialized model state dict. -/
inductive SavedEntry where
  | metaJson (img_size latent_dim model_type : ℕ) : SavedEntry
  | stateDict (state : ℕ) : SavedEntry
deriving DecidableEq

/-- Path join `os.path.join(directory, filename)` on POSIX. -/
def pathJoin (directory filename : String) : String := directory ++ "/" ++ filename

/-- Write sequence performed by `save_model` (training.py lines 160-174) with
`metadata=None`: `json.dump(metadata, f)` writes to
`path_to_metadata = os.path.join(directory, filename)` and then
`torch.save(model.state_dict(), path_to_model)` writes to
`path_to_model = os.path.join(directory, filename)` — the same path built
from the same `filename` argument; the module constant
`META_FILENAME = "specs.json"` (training.py line 17) is never used. -/
def save_model_writes (directory filename : String)
    (img_size latent_dim model_type state : ℕ) : List (String × SavedEntry) :=
  [ (pathJoin directory filename, SavedEntry.metaJson img_size latent_dim model_type),
    (pathJoin directory filename, SavedEntry.stateDict state) ]

/-- Contents readable at a path after a sequence of writes: the last write to
that path wins. -/
def readAfter (writes : List (String × SavedEntry)) (p : String) : Option SavedEntry :=
  ((writes.filter (fun w => w.1 == p)).map Prod.snd).getLast?

/-- numpy basic slice assignment `arr[:k] = vals` for a block of rows: when
`vals` has exactly `min k arr.length` rows they replace the slice, a single
row broadcasts across the whole slice, and any other row count raises
ValueError. -/
def sliceAssignFull (arr : List ℚ) (k : ℕ) (vals : List ℚ) : Except String (List ℚ) :=
  let m := min k arr.length
  if vals.length = m then Except.ok (vals ++ arr.drop m)
  else if vals.length = 1 then Except.ok (List.replicate m (vals.headD 0) ++ arr.drop m)
  else Except.error "ValueError: could not broadcast input array"

/-- Materialization phase of `get_fid_value` (fid.py lines 191-221): probe
the first batch for the per-sample shape — when the dataloader is empty the
probe loop never runs and line 197 raises NameError because `shapeI` is
unbound — then preallocate `original_input`, `original_label` and
`vae_output` with `batch_size` leading rows, write the first batch into each
by the slice assignment `[:batch_size]`, and append every later batch by
concatenation.  Samples and labels are abstract tokens, `initI`/`initL` are
the arbitrary `np.empty` contents, and `vae` is the per-sample action of
`vae_model(inputs)[0]`. -/
def get_fid_value_materialize (batch_size : ℕ) (initI initL : ℚ) (vae : ℚ → ℚ)
    (batches : List (List ℚ × List ℚ)) : Except String (List ℚ × List ℚ × List ℚ) :=
  match batches with
  | [] => Except.error "NameError: name shapeI is not defined"
  | b1 :: rest => do
      let oi ← sliceAssignFull (List.replicate batch_size initI) batch_size b1.1
      let ol ← sliceAssignFull (List.replicate batch_size initL) batch_size b1.2
      let vo ← sliceAssignFull (List.replicate batch_size initI) batch_size (b1.1.map vae)
      Except.ok (rest.foldl (fun acc b =>
          (acc.1 ++ b.1, acc.2.1 ++ b.2, acc.2.2 ++ b.1.map vae)) (oi, ol, vo))

/-- Dot product of the pointwise difference of two equal-length vectors with
itself is the squared Euclidean norm of the difference. -/
theorem dotL_sub_self (x y : Vec) (h : x.length = y.length) :
    dotL (List.zipWith (· - ·) x y) (List.zipWith (· - ·) x y) =
      ∑ i in Finset.range x.length, (x.getD i 0 - y.getD i 0) ^ 2 := by
  induction x generalizing y with
  | nil => simp [dotL]
  | cons a x ih =>
    cases y with
    | nil => simp at h
    | cons b y =>
      have hxy : x.length = y.length := by simpa using h
      simp only [List.zipWith_cons_cons, dotL, List.sum_cons, List.length_cons]
      rw [Finset.sum_range_succ']
      simp only [List.getD_cons_succ, List.getD_cons_zero]
      rw [← ih y hxy]
      simp [dotL]
      ring

/-- C1: for Gaussian summaries of equal dimensionality whose covariance-product
square root is finite with negligible imaginary diagonal,
`_calculate_frechet_distance` returns
`||mu1 - mu2||^2 + trace(sigma1) + trace(sigma2) - 2 * trace(sqrtm(sigma1.sigma2))`
(its real component, the imaginary diagonal being negligible). -/
theorem frechet_distance_formula (sqrtm : Mat → SqrtmOut) (mu1 mu2 : Vec)
    (sigma1 sigma2 : Mat) (eps : ℚ)
    (hm : mu1.length = mu2.length) (hs : shapeM sigma1 = shapeM sigma2)
    (hfin : (sqrtm (matmulL sigma1 sigma2)).allFinite = true)
    (him : (sqrtm (matmulL sigma1 sigma2)).isComplex = true →
           diagImagNegligible (sqrtm (matmulL sigma1 sigma2)).im = true) :
    calculate_frechet_distance sqrtm mu1 mu2 sigma1 sigma2 eps =
      Except.ok ((∑ i in Finset.range mu1.length, (mu1.getD i 0 - mu2.getD i 0) ^ 2)
        + traceL sigma1 + traceL sigma2
        - 2 * traceL (sqrtm (matmulL sigma1 sigma2)).re) := by
  have hcond : ((sqrtm (matmulL sigma1 sigma2)).isComplex &&
      !diagImagNegligible (sqrtm (matmulL sigma1 sigma2)).im) = false := by
    cases hC : (sqrtm (matmulL sigma1 sigma2)).isComplex
    · simp
    · simp [him hC]
  unfold calculate_frechet_distance frechetCovmean frechetTail
  rw [if_neg (by simp [hm]), if_neg (by simp [hs])]
  rw [if_pos hfin]
  simp only [hcond, Bool.false_eq_true, if_false]
  rw [dotL_sub_self mu1 mu2 hm]

/-- Witness for `frechet_distance_formula` at dimension 1 with a concrete
square-root oracle. -/
theorem frechet_distance_formula_witness :
    calculate_frechet_distance (fun _ => ⟨[[2]], [[0]], false, true⟩)
      [1] [0] [[4]] [[1]] fid_eps = Except.ok 2 := by
  have h := frechet_distance_formula (fun _ => ⟨[[2]], [[0]], false, true⟩)
    [1] [0] [[4]] [[1]] fid_eps rfl rfl rfl (fun hc => absurd hc Bool.false_ne_true)
  rw [h]
  have hr1 : List.range 1 = [0] := by decide
  simp [traceL, List.getD, hr1]
  norm_num

/-- C4: when the mean vectors or the covariance matrices have mismatched
shapes, `_calculate_frechet_distance` fails with one of the two assertion
messages and never returns a numeric result. -/
theorem frechet_distance_shape_mismatch (sqrtm : Mat → SqrtmOut) (mu1 mu2 : Vec)
    (sigma1 sigma2 : Mat) (eps : ℚ)
    (h : mu1.length ≠ mu2.length ∨ shapeM sigma1 ≠ shapeM sigma2) :
    calculate_frechet_distance sqrtm mu1 mu2 sigma1 sigma2 eps =
        Except.error "Training and test mean vectors have different lengths"
      ∨ calculate_frechet_distance sqrtm mu1 mu2 sigma1 sigma2 eps =
        Except.error "Training and test covariances have different dimensions" := by
  by_cases hm : mu1.length = mu2.length
  · have hsn : shapeM sigma1 ≠ shapeM sigma2 := by tauto
    right
    unfold calculate_frechet_distance
    rw [if_neg (by simp [hm]), if_pos hsn]
  · left
    unfold calculate_frechet_distance
    rw [if_pos hm]

/-- Witness for `frechet_distance_shape_mismatch`: mean vectors of lengths 1
and 2. -/
theorem frechet_distance_shape_mismatch_witness :
    calculate_frechet_distance (fun _ => ⟨[], [], false, true⟩)
        [0] [0, 0] [[1]] [[1]] fid_eps =
        Except.error "Training and test mean vectors have different lengths"
      ∨ calculate_frechet_distance (fun _ => ⟨[], [], false, true⟩)
        [0] [0, 0] [[1]] [[1]] fid_eps =
        Except.error "Training and test covariances have different dimensions" :=
  frechet_distance_shape_mismatch (fun _ => ⟨[], [], false, true⟩)
    [0] [0, 0] [[1]] [[1]] fid_eps (Or.inl (by simp))

/-- C5: with `eps` at its default 1e-6, the square root used downstream is the
unperturbed one exactly when the first square root is entirely finite; when
the first square root has a non-finite entry, `eps` times the identity is
added to both covariance estimates and the square root of the perturbed
product is the one used, unconditionally and with no further retry. -/
theorem frechet_singular_perturbation (sqrtm : Mat → SqrtmOut) (mu1 mu2 : Vec)
    (sigma1 sigma2 : Mat)
    (hm : mu1.length = mu2.length) (hs : shapeM sigma1 = shapeM sigma2) :
    calculate_frechet_distance_default sqrtm mu1 mu2 sigma1 sigma2 =
        frechetTail mu1 mu2 sigma1 sigma2 (frechetCovmean sqrtm sigma1 sigma2 (1/1000000))
      ∧ ((sqrtm (matmulL sigma1 sigma2)).allFinite = true →
          frechetCovmean sqrtm sigma1 sigma2 (1/1000000) = sqrtm (matmulL sigma1 sigma2))
      ∧ ((sqrtm (matmulL sigma1 sigma2)).allFinite = false →
          frechetCovmean sqrtm sigma1 sigma2 (1/1000000) =
            sqrtm (matmulL (addM sigma1 (eyeL (shapeM sigma1).1 (1/1000000)))
                           (addM sigma2 (eyeL (shapeM sigma1).1 (1/1000000))))) := by
  refine ⟨?_, ?_, ?_⟩
  · unfold calculate_frechet_distance_default calculate_frechet_distance fid_eps
    rw [if_neg (by simp [hm]), if_neg (by simp [hs])]
  · intro hfin
    unfold frechetCovmean
    rw [if_pos hfin]
  · intro hfin
    unfold frechetCovmean
    rw [if_neg (by simp [hfin])]

/-- Witness for `frechet_singular_perturbation` with an oracle that is
non-finite on the raw product `[[0]]` and finite on the perturbed product. -/
theorem frechet_singular_perturbation_witness :
    frechetCovmean
      (fun m => if m = [[0]] then ⟨[[0]], [[0]], false, false⟩ else ⟨[[1]], [[0]], false, true⟩)
      [[0]] [[0]] (1/1000000) = ⟨[[1]], [[0]], false, true⟩ := by
  have hprod : matmulL [[0]] [[0]] = [[(0 : ℚ)]] := by
    norm_num [matmulL, dotL, colL, shapeM]
  have hpert : matmulL (addM [[0]] (eyeL (shapeM [[(0 : ℚ)]]).1 (1/1000000)))
      (addM [[0]] (eyeL (shapeM [[(0 : ℚ)]]).1 (1/1000000))) = [[(1/1000000000000 : ℚ)]] := by
    have hr1 : List.range 1 = [0] := by decide
    simp [matmulL, addM, eyeL, dotL, colL, shapeM, hr1]
    norm_num
  have h := (frechet_singular_perturbation
    (fun m => if m = [[0]] then ⟨[[0]], [[0]], false, false⟩ else ⟨[[1]], [[0]], false, true⟩)
    [0] [0] [[0]] [[0]] rfl rfl).2.2 (by simp [hprod])
  rw [h, hpert]
  rw [if_neg (by norm_num)]

/-- C6: for a complex square-root result, `_calculate_frechet_distance` raises
ValueError naming the maximum absolute imaginary entry when some diagonal
imaginary component exceeds 1e-3 in absolute value, and otherwise discards the
imaginary part and returns the distance computed from the real component. -/
theorem frechet_imaginary_handling (mu1 mu2 : Vec) (sigma1 sigma2 : Mat)
    (cov : SqrtmOut) (hC : cov.isComplex = true) :
    (diagImagNegligible cov.im = false →
       frechetTail mu1 mu2 sigma1 sigma2 cov =
         Except.error ("Imaginary component " ++ toString (maxAbsL cov.im)))
    ∧ (diagImagNegligible cov.im = true →
       frechetTail mu1 mu2 sigma1 sigma2 cov =
         Except.ok (dotL (List.zipWith (· - ·) mu1 mu2) (List.zipWith (· - ·) mu1 mu2)
           + traceL sigma1 + traceL sigma2 - 2 * traceL cov.re)) := by
  constructor
  · intro hneg
    unfold frechetTail
    rw [if_pos (by simp [hC, hneg])]
  · intro hneg
    unfold frechetTail
    rw [if_neg (by simp [hC, hneg])]

/-- Witness for `frechet_imaginary_handling`: a complex square root whose
diagonal imaginary entry 1 exceeds the 1e-3 tolerance. -/
theorem frechet_imaginary_handling_witness :
    frechetTail [0] [0] [[1]] [[1]] ⟨[[2]], [[1]], true, true⟩
      = Except.error ("Imaginary component " ++ toString (maxAbsL [[1]])) := by
  have hneg : diagImagNegligible ((⟨[[2]], [[1]], true, true⟩ : SqrtmOut)).im = false := by
    simp only [diagImagNegligible, diagL]
    norm_num [List.getD, decide_eq_false_iff_not]
  exact (frechet_imaginary_handling [0] [0] [[1]] [[1]] ⟨[[2]], [[1]], true, true⟩ rfl).1 hneg

/-- C7: for every N-by-D activation matrix, `_calculate_activation_statistics`
returns the column-wise arithmetic mean as the D-vector `mu` and the sample
(ddof = 1) covariance as the D-by-D matrix `sigma`, columns as variables and
rows as observations; no value of N is rejected (for N < 2 both sides are the
degenerate division by the zero factor, which this rational model reads as 0
where numpy emits non-finite entries). -/
theorem activation_statistics_spec (N D : ℕ) (a : Fin N → Fin D → ℚ) (j k : Fin D) :
    (calculate_activation_statistics N D a).1 j = (∑ i, a i j) / N
    ∧ (calculate_activation_statistics N D a).2 j k =
        (∑ i, (a i j - (∑ i2, a i2 j) / N) * (a i k - (∑ i2, a i2 k) / N)) / ((N : ℚ) - 1) := by
  refine ⟨rfl, ?_⟩
  show np_cov_rowvar_false N D a j k = _
  unfold np_cov_rowvar_false covFact np_mean_axis0
  by_cases hN : (N : ℚ) - 1 ≤ 0
  · rw [if_pos hN]
    rcases lt_or_eq_of_le hN with h0 | h0
    · have hN0 : N = 0 := by
        by_contra hne
        have h1 : (1 : ℚ) ≤ (N : ℚ) := by
          exact_mod_cast Nat.one_le_iff_ne_zero.mpr hne
        linarith
      subst hN0
      simp
    · rw [← h0]
  · rw [if_neg hN]

/-- Slice assignment at offset 0 onto a fresh (count 0) region: the first
`rs.length` cells take the new rows with count 1 and the remainder is
untouched. -/
theorem writeSlice_zero_fresh (rs todo : List ARow) (hle : rs.length ≤ todo.length) :
    writeSlice (todo.map (fun r => (0, r))) 0 rs =
      rs.map (fun r => (1, r)) ++ (todo.drop rs.length).map (fun r => (0, r)) := by
  induction rs generalizing todo with
  | nil =>
    cases todo with
    | nil => rfl
    | cons t ts => rfl
  | cons r rs ih =>
    cases todo with
    | nil => simp at hle
    | cons t ts =>
      have hle2 : rs.length ≤ ts.length := by simpa using hle
      simp only [List.map_cons, writeSlice, List.drop_succ_cons, List.cons_append]
      rw [ih ts hle2]
      simp

/-- Slice assignment past an untouched prefix leaves the prefix unchanged. -/
theorem writeSlice_append (done rest : List ACell) (rs : List ARow) :
    writeSlice (done ++ rest) done.length rs = done ++ writeSlice rest 0 rs := by
  induction done with
  | nil => rfl
  | cons d done ih =>
    show d :: writeSlice (done ++ rest) done.length rs = d :: (done ++ writeSlice rest 0 rs)
    rw [ih]

/-- Loop invariant of `_get_activations`: when the remaining batches exactly
fill the unwritten suffix, running the loop turns that suffix into the
concatenation of the batches, each row with write count 1. -/
theorem getActivationsLoop_spec (ps : List (List ARow)) :
    ∀ (done : List ACell) (todo : List ARow),
      (ps.map List.length).sum = todo.length →
      getActivationsLoop (done ++ todo.map (fun r => (0, r))) done.length ps
        = done ++ ps.flatten.map (fun r => (1, r)) := by
  induction ps with
  | nil =>
    intro done todo h
    have htodo : todo = [] := by
      cases todo with
      | nil => rfl
      | cons t ts => simp at h
    subst htodo
    simp [getActivationsLoop]
  | cons p ps ih =>
    intro done todo h
    have hsum : p.length + (ps.map List.length).sum = todo.length := by simpa using h
    have hle : p.length ≤ todo.length := by omega
    show getActivationsLoop
        (writeSlice (done ++ todo.map (fun r => (0, r))) done.length p)
        (done.length + p.length) ps = _
    rw [writeSlice_append, writeSlice_zero_fresh p todo hle]
    have harr : done ++ (p.map (fun r => (1, r)) ++ (todo.drop p.length).map (fun r => (0, r)))
        = (done ++ p.map (fun r => (1, r))) ++ (todo.drop p.length).map (fun r => (0, r)) := by
      simp [List.append_assoc]
    rw [harr]
    have hlen : done.length + p.length = (done ++ p.map (fun r => (1, r))).length := by
      simp
    rw [hlen]
    rw [ih (done ++ p.map (fun r => (1, r))) (todo.drop p.length)
      (by rw [List.length_drop]; omega)]
    simp

/-- C8: when the per-batch row counts sum to the declared length, the filled
activation matrix is, row for row and in input order, the concatenation of
the per-batch embedding matrices, every row carrying write count exactly 1
(each row index written once and none twice). -/
theorem get_activations_rows (init : List ARow) (preds : List (List ARow))
    (h : (preds.map List.length).sum = init.length) :
    get_activations init preds = preds.flatten.map (fun r => (1, r))
    ∧ (get_activations init preds).map Prod.snd = preds.flatten
    ∧ (get_activations init preds).map Prod.fst = List.replicate init.length 1 := by
  have hmain : get_activations init preds = preds.flatten.map (fun r => (1, r)) := by
    have hspec := getActivationsLoop_spec preds ([] : List ACell) init h
    simpa [get_activations, getActivationsLoop] using hspec
  refine ⟨hmain, ?_, ?_⟩
  · rw [hmain]
    simp
  · rw [hmain]
    have hconst : ∀ (l : List ARow), (l.map (fun r => ((1 : ℕ), r))).map Prod.fst
        = List.replicate l.length 1 := by
      intro l
      induction l with
      | nil => rfl
      | cons x xs ih => simp [ih, List.replicate_succ]
    have hlen : preds.flatten.length = init.length := by
      rw [List.length_flatten]
      exact h
    rw [hconst, hlen]

/-- Witness for `get_activations_rows`: the specification's 3-batch sequence
of sizes (4, 4, 2) with distinguishable one-entry rows. -/
theorem get_activations_rows_witness :
    get_activations (List.replicate 10 ([] : ARow))
        [[[(1 : ℚ)], [2], [3], [4]], [[5], [6], [7], [8]], [[9], [10]]]
      = ([[[(1 : ℚ)], [2], [3], [4]], [[5], [6], [7], [8]], [[9], [10]]] :
          List (List ARow)).flatten.map (fun r => (1, r))
    ∧ (get_activations (List.replicate 10 ([] : ARow))
        [[[(1 : ℚ)], [2], [3], [4]], [[5], [6], [7], [8]], [[9], [10]]]).map Prod.snd
      = ([[[(1 : ℚ)], [2], [3], [4]], [[5], [6], [7], [8]], [[9], [10]]] :
          List (List ARow)).flatten
    ∧ (get_activations (List.replicate 10 ([] : ARow))
        [[[(1 : ℚ)], [2], [3], [4]], [[5], [6], [7], [8]], [[9], [10]]]).map Prod.fst
      = List.replicate (List.replicate 10 ([] : ARow)).length 1 :=
  get_activations_rows (List.replicate 10 ([] : ARow))
    [[[(1 : ℚ)], [2], [3], [4]], [[5], [6], [7], [8]], [[9], [10]]] (by decide)

/-- C3: for every batch whose feature-network output is spatial (extent other
than 1-by-1), the pooling branch of `_get_activations` raises NameError
instead of pooling, because `adaptive_avg_pool2d` is never imported in
`utils/fid.py`. -/
theorem pool_branch_name_error (pred : Pred4) (hsp : pred.h ≠ 1 ∨ pred.w ≠ 1) :
    getActivationsPool pred =
      Except.error "NameError: name adaptive_avg_pool2d is not defined" := by
  unfold getActivationsPool
  rw [if_pos hsp]

/-- Witness for `pool_branch_name_error`: a 2-by-2 spatial output. -/
theorem pool_branch_name_error_witness :
    getActivationsPool ⟨1, 3, 2, 2, fun _ _ _ _ => 0⟩ =
      Except.error "NameError: name adaptive_avg_pool2d is not defined" :=
  pool_branch_name_error ⟨1, 3, 2, 2, fun _ _ _ _ => 0⟩ (Or.inl (by decide))

/-- C2: the index positions actually used to select samples are not the drawn
random subset.  With a dataset of 100001 samples, the legal draw
`[1, ..., 100000]` (100000 = min(FID_EVAL_SIZE, 100001) distinct indices
below 100001) is wrapped in `SequentialSampler`, which yields the positions
`0, ..., 99999`; position 0 is used although it was never drawn, so the used
subset differs from the drawn one. -/
theorem fid_used_indices_not_drawn :
    IsChoiceWithoutReplacement 100001 (List.range' 1 100000)
    ∧ fidUsedIndices (List.range' 1 100000) = List.range 100000
    ∧ 0 ∈ fidUsedIndices (List.range' 1 100000)
    ∧ 0 ∉ List.range' 1 100000 := by
  have hlen : (List.range' 1 100000).length = 100000 := List.length_range' ..
  refine ⟨⟨?_, List.nodup_range' 1 100000, ?_⟩, ?_, ?_, ?_⟩
  · rw [hlen]
    rfl
  · intro x hx
    rw [List.mem_range'_1] at hx
    omega
  · rw [fidUsedIndices, sequentialSampler, hlen]
  · rw [fidUsedIndices, sequentialSampler, hlen]
    simp [List.mem_range]
  · intro hmem
    rw [List.mem_range'_1] at hmem
    omega

/-- C9: `save_model` does not persist the metadata at a path distinct from
the model state.  Both `json.dump` and `torch.save` target
`os.path.join(directory, filename)`, so after `save_model` returns, that path
holds the state dict and the metadata JSON is readable at no path at all. -/
theorem save_model_metadata_overwritten (directory filename : String)
    (img_size latent_dim model_type state : ℕ) :
    readAfter (save_model_writes directory filename img_size latent_dim model_type state)
        (pathJoin directory filename) = some (SavedEntry.stateDict state)
    ∧ ∀ p, readAfter (save_model_writes directory filename img_size latent_dim model_type state) p
        ≠ some (SavedEntry.metaJson img_size latent_dim model_type) := by
  constructor
  · simp [readAfter, save_model_writes]
  · intro p
    by_cases hp : pathJoin directory filename = p
    · subst hp
      simp [readAfter, save_model_writes]
    · simp [readAfter, save_model_writes, hp]

/-- Witness for `save_model_metadata_overwritten` at the concrete call
`save_model(model, "results")` with the default filename: the single written
path holds the state dict, not the metadata JSON. -/
theorem save_model_metadata_overwritten_witness :
    readAfter (save_model_writes "results" "model.pt" 32 10 3 7)
        (pathJoin "results" "model.pt") = some (SavedEntry.stateDict 7)
    ∧ readAfter (save_model_writes "results" "model.pt" 32 10 3 7)
        (pathJoin "results" "model.pt") ≠ some (SavedEntry.metaJson 32 10 3) :=
  ⟨(save_model_metadata_overwritten "results" "model.pt" 32 10 3 7).1,
   (save_model_metadata_overwritten "results" "model.pt" 32 10 3 7).2
     (pathJoin "results" "model.pt")⟩

/-- Concatenation loop of `get_fid_value` for the batches after the first
(fid.py lines 212-215): folding appends each batch's inputs, labels and
reconstructions in order. -/
theorem fid_concat_loop (vae : ℚ → ℚ) (rest : List (List ℚ × List ℚ)) :
    ∀ oi ol vo : List ℚ,
      rest.foldl (fun acc b => (acc.1 ++ b.1, acc.2.1 ++ b.2, acc.2.2 ++ b.1.map vae))
          (oi, ol, vo)
        = (oi ++ (rest.map Prod.fst).flatten, ol ++ (rest.map Prod.snd).flatten,
           vo ++ ((rest.map Prod.fst).flatten).map vae) := by
  induction rest with
  | nil =>
    intro oi ol vo
    simp
  | cons b rest ih =>
    intro oi ol vo
    simp only [List.foldl_cons, List.map_cons, List.flatten_cons, List.map_append]
    rw [ih]
    simp [List.append_assoc]

/-- Counterexample to C10 as stated: with `batch_size = 4` and an evaluation
dataset of a single sample — fewer samples than `batch_size` — the
first-batch write does not fail with a shape mismatch; the lone sample
broadcasts across all 4 preallocated rows and the call returns normally. -/
theorem fid_materialize_single_sample_no_failure :
    get_fid_value_materialize 4 0 0 id [([5], [7])]
      = Except.ok (List.replicate 4 5, List.replicate 4 7, List.replicate 4 5) := by
  rfl

/-- C10 (amended): the three output arrays are preallocated with `batch_size`
leading rows and the first batch is written by the `[:batch_size]` slice
assignment, so a first batch of n samples with 2 ≤ n < batch_size fails with
a broadcast ValueError, an empty dataloader raises NameError at the shape
probe before any array exists, a single-sample first batch broadcasts across
all `batch_size` rows, and a full first batch is written exactly with later
batches appended in order. -/
theorem fid_materialize_first_batch (batch_size : ℕ) (initI initL : ℚ) (vae : ℚ → ℚ) :
    (get_fid_value_materialize batch_size initI initL vae [] =
        Except.error "NameError: name shapeI is not defined")
    ∧ (∀ b1 rest, 2 ≤ b1.1.length → b1.1.length < batch_size →
        get_fid_value_materialize batch_size initI initL vae (b1 :: rest) =
          Except.error "ValueError: could not broadcast input array")
    ∧ (∀ a l : ℚ, get_fid_value_materialize batch_size initI initL vae [([a], [l])] =
        Except.ok (List.replicate batch_size a, List.replicate batch_size l,
          List.replicate batch_size (vae a)))
    ∧ (∀ b1 rest, b1.1.length = batch_size → b1.2.length = batch_size →
        get_fid_value_materialize batch_size initI initL vae (b1 :: rest) =
          Except.ok (b1.1 ++ (rest.map Prod.fst).flatten,
            b1.2 ++ (rest.map Prod.snd).flatten,
            b1.1.map vae ++ ((rest.map Prod.fst).flatten).map vae)) := by
  have hmin : min batch_size (List.replicate batch_size initI).length = batch_size := by
    simp
  have hminL : min batch_size (List.replicate batch_size initL).length = batch_size := by
    simp
  refine ⟨rfl, ?_, ?_, ?_⟩
  · intro b1 rest h2 hlt
    show (do
        let oi ← sliceAssignFull (List.replicate batch_size initI) batch_size b1.1
        let ol ← sliceAssignFull (List.replicate batch_size initL) batch_size b1.2
        let vo ← sliceAssignFull (List.replicate batch_size initI) batch_size (b1.1.map vae)
        Except.ok (rest.foldl (fun (acc : List ℚ × List ℚ × List ℚ) (b : List ℚ × List ℚ) =>
          (acc.1 ++ b.1, acc.2.1 ++ b.2, acc.2.2 ++ b.1.map vae)) (oi, ol, vo))) = _
    have h1 : sliceAssignFull (List.replicate batch_size initI) batch_size b1.1 =
        Except.error "ValueError: could not broadcast input array" := by
      unfold sliceAssignFull
      rw [if_neg (by simp; omega), if_neg (by omega)]
    rw [h1]
    rfl
  · intro a l
    have hone : ∀ init : ℚ, ∀ v : List ℚ, v.length = 1 →
        sliceAssignFull (List.replicate batch_size init) batch_size v =
          Except.ok (List.replicate batch_size (v.headD 0)) := by
      intro init v hv
      unfold sliceAssignFull
      by_cases hbs : batch_size = 1
      · subst hbs
        rw [if_pos (by simp [hv])]
        cases v with
        | nil => simp at hv
        | cons x xs =>
          have : xs = [] := by simpa using hv
          subst this
          simp
      · rw [if_neg (by simp [hv]; omega), if_pos hv]
        simp
    show (do
        let oi ← sliceAssignFull (List.replicate batch_size initI) batch_size [a]
        let ol ← sliceAssignFull (List.replicate batch_size initL) batch_size [l]
        let vo ← sliceAssignFull (List.replicate batch_size initI) batch_size ([a].map vae)
        Except.ok (List.foldl (fun (acc : List ℚ × List ℚ × List ℚ) (b : List ℚ × List ℚ) =>
          (acc.1 ++ b.1, acc.2.1 ++ b.2, acc.2.2 ++ b.1.map vae)) (oi, ol, vo) [])) = _
    rw [hone initI [a] rfl, hone initL [l] rfl, hone initI ([a].map vae) rfl]
    rfl
  · intro b1 rest hI hL
    have hfull : ∀ init : ℚ, ∀ v : List ℚ, v.length = batch_size →
        sliceAssignFull (List.replicate batch_size init) batch_size v = Except.ok v := by
      intro init v hv
      unfold sliceAssignFull
      rw [if_pos (by simp [hv])]
      simp [hv]
    show (do
        let oi ← sliceAssignFull (List.replicate batch_size initI) batch_size b1.1
        let ol ← sliceAssignFull (List.replicate batch_size initL) batch_size b1.2
        let vo ← sliceAssignFull (List.replicate batch_size initI) batch_size (b1.1.map vae)
        Except.ok (rest.foldl (fun (acc : List ℚ × List ℚ × List ℚ) (b : List ℚ × List ℚ) =>
          (acc.1 ++ b.1, acc.2.1 ++ b.2, acc.2.2 ++ b.1.map vae)) (oi, ol, vo))) = _
    rw [hfull initI b1.1 hI, hfull initL b1.2 hL, hfull initI (b1.1.map vae) (by simp [hI])]
    show Except.ok (rest.foldl _ (b1.1, b1.2, b1.1.map vae)) = _
    rw [fid_concat_loop vae rest b1.1 b1.2 (b1.1.map vae)]

/-- Witness for `fid_materialize_first_batch`: with `batch_size = 4`, a first
batch of 2 samples (2 ≤ 2 < 4) makes the materialization fail with the
broadcast ValueError. -/
theorem fid_materialize_first_batch_witness :
    get_fid_value_materialize 4 0 0 id [([1, 2], [3, 4])] =
      Except.error "ValueError: could not broadcast input array" :=
  (fid_materialize_first_batch 4 0 0 id).2.1 ([1, 2], [3, 4]) [] (by decide) (by decide)

end BetaVAE
